import Mathlib

/-!
# Verification of the f4m (Adobe HDS) downloader core

A shallow embedding, in Lean 4, of the core of `f4m.py`: the `FlvReader`
byte-buffer parser (primitive reads, C-string reads, box headers, the
`asrt`/`afrt`/`abst` bootstrap grammars), the fragment planner
`build_fragments_list`, the FLV header writer `_write_flv_header`, the
per-fragment `mdat` extraction loop, and the download orchestration loop of
`download_info_dict`.

Modelling conventions:
* Byte buffers are `List Nat` (each element a byte value `0..255`); the
  `io.BytesIO` cursor is modelled by passing the *remaining* suffix of the
  buffer (the code never seeks backwards).
* Python `read(n)` returns *up to* `n` bytes — fewer near the end of the
  buffer, everything remaining when `n` is negative.  `readN` mirrors this.
* A read that raises in Python (`struct.error` from a short `unpack`, an
  `assert` failure, an `IndexError`) is `none` in the `Option`-valued model.
* The unbounded `while True` loop of `read_string` is modelled with explicit
  fuel; divergence of the Python loop corresponds to `none` for *every*
  fuel value.
-/

/-- Python `BytesIO.read(n)`: the first `n` remaining bytes (fewer when the
buffer is short), or the whole remainder when `n` is negative. -/
def readN (buf : List Nat) (n : Int) : List Nat × List Nat :=
  if n < 0 then (buf, [])
  else (buf.take n.toNat, buf.drop n.toNat)

/-- Big-endian value of a byte list (the value `unpack` computes). -/
def beVal (bs : List Nat) : Nat :=
  bs.foldl (fun acc b => acc * 256 + b) 0

/-- `read_unsigned_char`: `unpack('!B', self.read(1))` — fails when the
buffer is empty (short `unpack` raises `struct.error`). -/
def read_unsigned_char (buf : List Nat) : Option (Nat × List Nat) :=
  let r := readN buf 1
  if r.1.length = 1 then some (beVal r.1, r.2) else none

/-- `read_unsigned_int`: `unpack('!I', self.read(4))`, big-endian, fails on
fewer than 4 remaining bytes. -/
def read_unsigned_int (buf : List Nat) : Option (Nat × List Nat) :=
  let r := readN buf 4
  if r.1.length = 4 then some (beVal r.1, r.2) else none

/-- `read_unsigned_long_long`: `unpack('!Q', self.read(8))`, big-endian,
fails on fewer than 8 remaining bytes. -/
def read_unsigned_long_long (buf : List Nat) : Option (Nat × List Nat) :=
  let r := readN buf 8
  if r.1.length = 8 then some (beVal r.1, r.2) else none

/-- The body of `read_string`'s `while True` loop, with explicit fuel.
Each iteration does `char = self.read(1)`; at end of buffer `read(1)`
returns the empty bytes object, which is *not* equal to `b'\x00'`, so the
loop repeats without consuming anything: the Python loop diverges, and the
model returns `none` for every fuel value. -/
def readStringAux : Nat → List Nat → Option (List Nat × List Nat)
  | 0, _ => none
  | fuel + 1, buf =>
    match buf with
    | [] => readStringAux fuel []
    | c :: rest =>
      if c = 0 then some ([], rest)
      else
        match readStringAux fuel rest with
        | some (s, b) => some (c :: s, b)
        | none => none

/-- `read_string`: accumulate bytes until a NUL.  Fuel `buf.length + 1` is
enough to reach any NUL present in the buffer; when no NUL is present the
Python loop diverges and the model yields `none`. -/
def read_string (buf : List Nat) : Option (List Nat × List Nat) :=
  readStringAux (buf.length + 1) buf

/-- `read_box_info`: 4-byte size, 4-byte type tag; a size field of `1`
signals an 8-byte extended size (header length 16, else 8); the payload is
`self.read(real_size - header_end)` — note Python computes this difference
as a possibly *negative* int, and `read` of a negative count returns the
whole remainder.  No check that the payload is complete is performed. -/
def read_box_info (buf : List Nat) : Option (Nat × List Nat × List Nat × List Nat) :=
  match read_unsigned_int buf with
  | none => none
  | some (size, b1) =>
    let t := readN b1 4
    if size = 1 then
      match read_unsigned_long_long t.2 with
      | none => none
      | some (real_size, b2) =>
        let p := readN b2 ((real_size : Int) - 16)
        some (real_size, t.1, p.1, p.2)
    else
      let p := readN t.2 ((size : Int) - 8)
      some (size, t.1, p.1, p.2)

/-- Result of `read_asrt` (a segment run table). -/
structure Asrt where
  version : Nat
  quality_segment_modifiers : List (List Nat)
  segment_run : List (Nat × Nat)
  deriving DecidableEq, Repr

/-- Entry of a fragment run table, as built by `read_afrt`. -/
structure FragEntry where
  first : Nat
  ts : Nat
  duration : Nat
  discontinuity_indicator : Option Nat
  deriving DecidableEq, Repr

/-- Result of `read_afrt` (a fragment run table). -/
structure Afrt where
  version : Nat
  time_scale : Nat
  fragments : List FragEntry
  quality_entries : List (List Nat)
  deriving DecidableEq, Repr

/-- Result of `read_abst` (the root bootstrap box). -/
structure BootInfo where
  segments : List Asrt
  movie_identifier : List Nat
  drm_data : List Nat
  fragments : List Afrt
  deriving DecidableEq, Repr

/-- `n` consecutive `read_string` calls (the quality-modifier loops). -/
def readStrings : Nat → List Nat → Option (List (List Nat) × List Nat)
  | 0, buf => some ([], buf)
  | n + 1, buf =>
    match read_string buf with
    | none => none
    | some (s, b1) =>
      match readStrings n b1 with
      | none => none
      | some (ss, b2) => some (s :: ss, b2)

/-- `n` consecutive `(first_segment, fragments_per_segment)` u32 pairs. -/
def readSegPairs : Nat → List Nat → Option (List (Nat × Nat) × List Nat)
  | 0, buf => some ([], buf)
  | n + 1, buf =>
    match read_unsigned_int buf with
    | none => none
    | some (fs, b1) =>
      match read_unsigned_int b1 with
      | none => none
      | some (fps, b2) =>
        match readSegPairs n b2 with
        | none => none
        | some (ps, b3) => some ((fs, fps) :: ps, b3)

/-- `read_asrt`: version, 3 flag bytes, quality-modifier strings, then the
segment run entries. -/
def read_asrt (buf : List Nat) : Option Asrt :=
  match read_unsigned_char buf with
  | none => none
  | some (version, b1) =>
    let fl := readN b1 3
    match read_unsigned_char fl.2 with
    | none => none
    | some (qec, b2) =>
      match readStrings qec b2 with
      | none => none
      | some (mods, b3) =>
        match read_unsigned_int b3 with
        | none => none
        | some (src, b4) =>
          match readSegPairs src b4 with
          | none => none
          | some (segs, _) =>
            some { version := version, quality_segment_modifiers := mods,
                   segment_run := segs }

/-- `n` consecutive fragment run entries: u32 `first`, u64 `ts`, u32
`duration`, and a `discontinuity_indicator` byte present iff `duration = 0`. -/
def readAfrtEntries : Nat → List Nat → Option (List FragEntry × List Nat)
  | 0, buf => some ([], buf)
  | n + 1, buf =>
    match read_unsigned_int buf with
    | none => none
    | some (first, b1) =>
      match read_unsigned_long_long b1 with
      | none => none
      | some (ts, b2) =>
        match read_unsigned_int b2 with
        | none => none
        | some (dur, b3) =>
          let step : Option (Option Nat × List Nat) :=
            if dur = 0 then
              match read_unsigned_char b3 with
              | none => none
              | some (di, b4) => some (some di, b4)
            else some (none, b3)
          match step with
          | none => none
          | some (di, b4) =>
            match readAfrtEntries n b4 with
            | none => none
            | some (es, b5) =>
              some ({ first := first, ts := ts, duration := dur,
                      discontinuity_indicator := di } :: es, b5)

/-- `read_afrt`: version, 3 flag bytes, time scale, quality strings, then
the fragment run entries. -/
def read_afrt (buf : List Nat) : Option Afrt :=
  match read_unsigned_char buf with
  | none => none
  | some (version, b1) =>
    let fl := readN b1 3
    match read_unsigned_int fl.2 with
    | none => none
    | some (tscale, b2) =>
      match read_unsigned_char b2 with
      | none => none
      | some (qec, b3) =>
        match readStrings qec b3 with
        | none => none
        | some (qs, b4) =>
          match read_unsigned_int b4 with
          | none => none
          | some (fc, b5) =>
            match readAfrtEntries fc b5 with
            | none => none
            | some (es, _) =>
              some { version := version, time_scale := tscale,
                     fragments := es, quality_entries := qs }

/-- `n` child boxes each asserted to have type tag `asrt` (bytes
`[97,115,114,116]`), each parsed by `read_asrt` on its own payload; a
mismatching tag is an `assert` failure. -/
def readAsrtBoxes : Nat → List Nat → Option (List Asrt × List Nat)
  | 0, buf => some ([], buf)
  | n + 1, buf =>
    match read_box_info buf with
    | none => none
    | some (_, btype, bdata, rest) =>
      if btype = [97, 115, 114, 116] then
        match read_asrt bdata with
        | none => none
        | some a =>
          match readAsrtBoxes n rest with
          | none => none
          | some (as1, b1) => some (a :: as1, b1)
      else none

/-- `n` child boxes each asserted to have type tag `afrt` (bytes
`[97,102,114,116]`), each parsed by `read_afrt` on its own payload. -/
def readAfrtBoxes : Nat → List Nat → Option (List Afrt × List Nat)
  | 0, buf => some ([], buf)
  | n + 1, buf =>
    match read_box_info buf with
    | none => none
    | some (_, btype, bdata, rest) =>
      if btype = [97, 102, 114, 116] then
        match read_afrt bdata with
        | none => none
        | some a =>
          match readAfrtBoxes n rest with
          | none => none
          | some (as1, b1) => some (a :: as1, b1)
      else none

/-- `read_abst`, the root bootstrap box parser.  Note the quality-string
loop of the source is `for i in range(server_count)` — it consumes
`server_count` strings (not `quality_count`), and appends the stale
`server` variable; the resulting local `qualities` list is discarded, so
only the consumption is observable and is modelled. -/
def read_abst (buf : List Nat) : Option BootInfo :=
  match read_unsigned_char buf with
  | none => none
  | some (_version, b1) =>
    let fl := readN b1 3
    match read_unsigned_int fl.2 with
    | none => none
    | some (_biv, b2) =>
      let rsv := readN b2 1
      match read_unsigned_int rsv.2 with
      | none => none
      | some (_tscale, b3) =>
        match read_unsigned_long_long b3 with
        | none => none
        | some (_cmt, b4) =>
          match read_unsigned_long_long b4 with
          | none => none
          | some (_smpte, b5) =>
            match read_string b5 with
            | none => none
            | some (movie_identifier, b6) =>
              match read_unsigned_char b6 with
              | none => none
              | some (server_count, b7) =>
                match readStrings server_count b7 with
                | none => none
                | some (_servers, b8) =>
                  match read_unsigned_char b8 with
                  | none => none
                  | some (_quality_count, b9) =>
                    match readStrings server_count b9 with
                    | none => none
                    | some (_qualities, b10) =>
                      match read_string b10 with
                      | none => none
                      | some (drm_data, b11) =>
                        match read_string b11 with
                        | none => none
                        | some (_metadata, b12) =>
                          match read_unsigned_char b12 with
                          | none => none
                          | some (segments_count, b13) =>
                            match readAsrtBoxes segments_count b13 with
                            | none => none
                            | some (segs, b14) =>
                              match read_unsigned_char b14 with
                              | none => none
                              | some (frc, b15) =>
                                match readAfrtBoxes frc b15 with
                                | none => none
                                | some (frs, _) =>
                                  some { segments := segs,
                                         movie_identifier := movie_identifier,
                                         drm_data := drm_data,
                                         fragments := frs }

/-- `read_bootstrap_info`: one outer box asserted to be `abst`
(bytes `[97,98,115,116]`), parsed by `read_abst`. -/
def read_bootstrap_info (buf : List Nat) : Option BootInfo :=
  match read_box_info buf with
  | none => none
  | some (_, btype, bdata, _) =>
    if btype = [97, 98, 115, 116] then read_abst bdata else none

/-- `build_fragments_list`: `n_frags` from the first entry of the first
segment run table, first fragment number from the first entry of the first
fragment run table; `zip(range(1, n_frags+1), itertools.count(first))`
appended as `(1, frag_number)` pairs.  A Python `IndexError` from any of
the four `[0]` indexings is `none`. -/
def build_fragments_list (boot_info : BootInfo) : Option (List (Nat × Nat)) :=
  match boot_info.segments with
  | [] => none
  | segment_run_table :: _ =>
    match segment_run_table.segment_run with
    | [] => none
    | segment_run_entry :: _ =>
      let n_frags := segment_run_entry.2
      match boot_info.fragments with
      | [] => none
      | frt :: _ =>
        match frt.fragments with
        | [] => none
        | fe :: _ =>
          some ((List.range n_frags).map (fun i => (1, fe.first + i)))

/-- C1 (confirmed): with `N = segments[0].segment_run[0].fragments_per_segment`
and `F = fragment_runs[0].fragments[0].first_fragment`, `N ≥ 1`,
`build_fragments_list` returns exactly `[(1,F), (1,F+1), …, (1,F+N-1)]`:
length `N`, every segment number `1`, fragment numbers consecutive from `F`. -/
theorem c1_build_fragments_exact (b : BootInfo) (st : Asrt) (se : Nat × Nat)
    (ft : Afrt) (fe : FragEntry)
    (hs : b.segments.head? = some st) (hr : st.segment_run.head? = some se)
    (hf : b.fragments.head? = some ft) (he : ft.fragments.head? = some fe)
    (hn : 1 ≤ se.2) :
    build_fragments_list b = some ((List.range se.2).map (fun i => (1, fe.first + i))) ∧
    ((List.range se.2).map (fun i => (1, fe.first + i))).length = se.2 ∧
    (∀ p ∈ (List.range se.2).map (fun i => (1, fe.first + i)), p.1 = 1) ∧
    (∀ i, i < se.2 →
      ((List.range se.2).map (fun i => (1, fe.first + i))).get? i = some (1, fe.first + i)) := by
  obtain ⟨ts, hts⟩ : ∃ ts, b.segments = st :: ts := by
    cases hb : b.segments with
    | nil => rw [hb] at hs; simp at hs
    | cons x xs => rw [hb] at hs; simp at hs; exact ⟨xs, by rw [hs]⟩
  obtain ⟨tr, htr⟩ : ∃ tr, st.segment_run = se :: tr := by
    cases hb : st.segment_run with
    | nil => rw [hb] at hr; simp at hr
    | cons x xs => rw [hb] at hr; simp at hr; exact ⟨xs, by rw [hr]⟩
  obtain ⟨tf, htf⟩ : ∃ tf, b.fragments = ft :: tf := by
    cases hb : b.fragments with
    | nil => rw [hb] at hf; simp at hf
    | cons x xs => rw [hb] at hf; simp at hf; exact ⟨xs, by rw [hf]⟩
  obtain ⟨te, hte⟩ : ∃ te, ft.fragments = fe :: te := by
    cases hb : ft.fragments with
    | nil => rw [hb] at he; simp at he
    | cons x xs => rw [hb] at he; simp at he; exact ⟨xs, by rw [he]⟩
  refine ⟨?_, ?_, ?_, ?_⟩
  · simp [build_fragments_list, hts, htr, htf, hte]
  · simp
  · intro p hp
    simp only [List.mem_map, List.mem_range] at hp
    obtain ⟨i, _, hpi⟩ := hp
    rw [← hpi]
  · intro i hi
    rw [List.get?_map, List.get?_range hi]
    rfl

/-- C1 witness: the §8 example — one segment run entry `(1,5)`, first
fragment `100` — yields exactly `[(1,100),…,(1,104)]`. -/
theorem c1_build_fragments_exact_witness :
    build_fragments_list
      { segments := [{ version := 0, quality_segment_modifiers := [],
                       segment_run := [(1, 5)] }],
        movie_identifier := [], drm_data := [],
        fragments := [{ version := 0, time_scale := 1,
                        fragments := [{ first := 100, ts := 0, duration := 2,
                                        discontinuity_indicator := none }],
                        quality_entries := [] }] } =
      some [(1, 100), (1, 101), (1, 102), (1, 103), (1, 104)] := by
  have h := c1_build_fragments_exact
    { segments := [{ version := 0, quality_segment_modifiers := [],
                     segment_run := [(1, 5)] }],
      movie_identifier := [], drm_data := [],
      fragments := [{ version := 0, time_scale := 1,
                      fragments := [{ first := 100, ts := 0, duration := 2,
                                      discontinuity_indicator := none }],
                      quality_entries := [] }] }
    { version := 0, quality_segment_modifiers := [], segment_run := [(1, 5)] }
    (1, 5)
    { version := 0, time_scale := 1,
      fragments := [{ first := 100, ts := 0, duration := 2,
                      discontinuity_indicator := none }],
      quality_entries := [] }
    { first := 100, ts := 0, duration := 2, discontinuity_indicator := none }
    rfl rfl rfl rfl (by decide)
  exact h.1.trans (by decide)

/-- C4 counterexample: a bootstrap model with *two* segment run tables and
*two* fragment run tables.  The claim says `build_fragments_list` fails
(`UnsupportedStream`); the code instead succeeds, silently using only the
first table of each kind. -/
theorem c4_counterexample :
    build_fragments_list
      { segments := [{ version := 0, quality_segment_modifiers := [],
                       segment_run := [(1, 2)] },
                     { version := 0, quality_segment_modifiers := [],
                       segment_run := [(7, 9)] }],
        movie_identifier := [], drm_data := [],
        fragments := [{ version := 0, time_scale := 1,
                        fragments := [{ first := 100, ts := 0, duration := 2,
                                        discontinuity_indicator := none }],
                        quality_entries := [] },
                      { version := 0, time_scale := 1,
                        fragments := [{ first := 500, ts := 0, duration := 2,
                                        discontinuity_indicator := none }],
                        quality_entries := [] }] } =
      some [(1, 100), (1, 101)] := by decide

/-- C4 (corrected): `build_fragments_list` fails — with a Python
`IndexError`, there is no `UnsupportedStream` error in the code — exactly
when `segments`, the first table's `segment_run`, `fragments`, or the
first fragment run table's entry list is empty; when more than one
segment or fragment run table is present the extra tables are silently
ignored and the result is computed from the first table of each kind. -/
theorem c4_first_table_only :
    (∀ b : BootInfo,
      build_fragments_list b = none ↔
        (b.segments = [] ∨
         (∃ st ts, b.segments = st :: ts ∧ st.segment_run = []) ∨
         b.fragments = [] ∨
         (∃ ft tf, b.fragments = ft :: tf ∧ ft.fragments = []))) ∧
    (∀ (b : BootInfo) (es : List Asrt) (efs : List Afrt),
      b.segments ≠ [] → b.fragments ≠ [] →
      build_fragments_list
        { segments := b.segments ++ es,
          movie_identifier := b.movie_identifier,
          drm_data := b.drm_data,
          fragments := b.fragments ++ efs } =
      build_fragments_list b) := by
  constructor
  · intro b
    cases hs : b.segments with
    | nil => simp [build_fragments_list, hs]
    | cons st ts =>
      cases hr : st.segment_run with
      | nil => simp [build_fragments_list, hs, hr]
      | cons se tr =>
        cases hf : b.fragments with
        | nil => simp [build_fragments_list, hs, hr, hf]
        | cons ft tf =>
          cases he : ft.fragments with
          | nil =>
            simp only [build_fragments_list, hs, hr, hf, he]
            constructor
            · intro _
              right; right; right
              exact ⟨ft, tf, rfl, he⟩
            · intro _; trivial
          | cons fe te =>
            simp only [build_fragments_list, hs, hr, hf, he]
            constructor
            · intro h; simp at h
            · intro h
              rcases h with h | h | h | h
              · simp at h
              · obtain ⟨st2, ts2, h1, h2⟩ := h
                obtain ⟨rfl, _⟩ := List.cons.inj h1
                rw [hr] at h2; simp at h2
              · simp at h
              · obtain ⟨ft2, tf2, h1, h2⟩ := h
                obtain ⟨rfl, _⟩ := List.cons.inj h1
                rw [he] at h2; simp at h2
  · intro b es efs hs hf
    cases hbs : b.segments with
    | nil => exact absurd hbs hs
    | cons st ts =>
      cases hbf : b.fragments with
      | nil => exact absurd hbf hf
      | cons ft tf =>
        simp only [build_fragments_list, hbs, hbf, List.cons_append]

/-- C4 witness: appending a second segment run table to a one-table model
leaves the planner's output unchanged (it is silently ignored). -/
theorem c4_first_table_only_witness :
    build_fragments_list
      { segments := [{ version := 0, quality_segment_modifiers := [],
                       segment_run := [(1, 3)] },
                     { version := 0, quality_segment_modifiers := [],
                       segment_run := [(2, 8)] }],
        movie_identifier := [], drm_data := [],
        fragments := [{ version := 0, time_scale := 1,
                        fragments := [{ first := 10, ts := 0, duration := 2,
                                        discontinuity_indicator := none }],
                        quality_entries := [] }] } =
    build_fragments_list
      { segments := [{ version := 0, quality_segment_modifiers := [],
                       segment_run := [(1, 3)] }],
        movie_identifier := [], drm_data := [],
        fragments := [{ version := 0, time_scale := 1,
                        fragments := [{ first := 10, ts := 0, duration := 2,
                                        discontinuity_indicator := none }],
                        quality_entries := [] }] } := by
  have h := c4_first_table_only.2
    { segments := [{ version := 0, quality_segment_modifiers := [],
                     segment_run := [(1, 3)] }],
      movie_identifier := [], drm_data := [],
      fragments := [{ version := 0, time_scale := 1,
                      fragments := [{ first := 10, ts := 0, duration := 2,
                                      discontinuity_indicator := none }],
                      quality_entries := [] }] }
    [{ version := 0, quality_segment_modifiers := [], segment_run := [(2, 8)] }]
    [] (by decide) (by decide)
  exact h

/-- Big-endian encoding of `n` into exactly `w` bytes (value taken
mod `256 ^ w`). -/
def encodeBE : Nat → Nat → List Nat
  | 0, _ => []
  | w + 1, n => encodeBE w (n / 256) ++ [n % 256]

/-- `pack('!L', n)`: the four big-endian bytes of an unsigned 32-bit value.
(Python's `struct.pack` raises for `n ≥ 2^32`; the model totalises it with
the usual machine-integer truncation, so theorems about the writer are
stated on `n < 2^32` where the two agree.) -/
def pack_L (n : Nat) : List Nat :=
  [n / 16777216 % 256, n / 65536 % 256, n / 256 % 256, n % 256]

/-- `pack('!L', len(metadata))[1:]`: the metadata size as 3 bytes — the top
byte of the 32-bit packed length is discarded. -/
def metaLenBytes (n : Nat) : List Nat :=
  (pack_L n).drop 1

/-- `_write_flv_header(stream, metadata)`: the exact byte sequence written —
`FLV\x01`, flags `\x05`, header size 9, zero previous-tag size, script-data
tag `\x12`, the 3-byte metadata length, 7 zero bytes (timestamp, stream id),
the metadata itself, then the fixed trailer `\x00\x00\x01\x73`. -/
def write_flv_header (metadata : List Nat) : List Nat :=
  [70, 76, 86, 1] ++ [5] ++ [0, 0, 0, 9] ++ [0, 0, 0, 0] ++ [18] ++
    metaLenBytes metadata.length ++ [0, 0, 0, 0, 0, 0, 0] ++
    metadata ++ [0, 0, 1, 115]

/-- The §6 output layout, written from the spec's words: signature+version
constant, stream-flags constant, header size 9 (u32), zero placeholder
(u32), metadata record type, 3-byte big-endian length of the metadata,
7 zero bytes, the metadata, the fixed 4-byte trailer constant. -/
def flvHeaderSpec (metadata : List Nat) : List Nat :=
  [70, 76, 86, 1] ++ [5] ++ encodeBE 4 9 ++ encodeBE 4 0 ++ [18] ++
    encodeBE 3 metadata.length ++ List.replicate 7 0 ++
    metadata ++ [0, 0, 1, 115]

lemma metaLenBytes_eq_encodeBE (n : Nat) : metaLenBytes n = encodeBE 3 n := by
  simp [metaLenBytes, pack_L, encodeBE, Nat.div_div_eq_div_mul]

/-- C2 (confirmed): `write_flv_header` reproduces the §6 layout byte for
byte, and on `metadata = b"META"` produces exactly the fixed 24-byte
prefix, then `META`, then the fixed 4-byte trailer — 32 bytes in total. -/
theorem c2_write_header_layout :
    (∀ metadata : List Nat, write_flv_header metadata = flvHeaderSpec metadata) ∧
    write_flv_header [77, 69, 84, 65] =
      [70, 76, 86, 1, 5, 0, 0, 0, 9, 0, 0, 0, 0, 18, 0, 0, 4,
       0, 0, 0, 0, 0, 0, 0, 77, 69, 84, 65, 0, 0, 1, 115] ∧
    (write_flv_header [77, 69, 84, 65]).length = 32 := by
  refine ⟨?_, by decide, by decide⟩
  intro metadata
  have h9 : encodeBE 4 9 = [0, 0, 0, 9] := by decide
  have h0 : encodeBE 4 0 = [0, 0, 0, 0] := by decide
  simp [write_flv_header, flvHeaderSpec, metaLenBytes_eq_encodeBE, h9, h0,
    List.replicate]

lemma beVal_append_singleton (bs : List Nat) (b : Nat) :
    beVal (bs ++ [b]) = beVal bs * 256 + b := by
  simp [beVal, List.foldl_append]

lemma beVal_encodeBE (w n : Nat) : beVal (encodeBE w n) = n % 256 ^ w := by
  induction w generalizing n with
  | zero => simp [encodeBE, beVal, Nat.mod_one]
  | succ w ih =>
    rw [encodeBE, beVal_append_singleton, ih]
    have h256 : (256 : Nat) ^ (w + 1) = 256 * 256 ^ w := by
      rw [pow_succ, Nat.mul_comm]
    rw [h256, Nat.mod_mul]
    ring

/-- C10 (confirmed): the 3-byte length field written by the header writer
is `pack('!L', len)[1:]`, whose big-endian value is `len mod 2^24`; for any
length `≥ 2^24` the declared metadata length silently wraps and no longer
equals the true length. -/
theorem c10_metadata_length_wraps :
    (∀ metadata : List Nat,
      ((write_flv_header metadata).drop 14).take 3 = metaLenBytes metadata.length) ∧
    (∀ n : Nat, beVal (metaLenBytes n) = n % 16777216) ∧
    (∀ n : Nat, 16777216 ≤ n → n % 16777216 ≠ n) := by
  refine ⟨?_, ?_, ?_⟩
  · intro metadata
    have hsplit : write_flv_header metadata =
        ([70, 76, 86, 1, 5, 0, 0, 0, 9, 0, 0, 0, 0, 18] : List Nat) ++
        (metaLenBytes metadata.length ++
          ([0, 0, 0, 0, 0, 0, 0] ++ (metadata ++ [0, 0, 1, 115]))) := by
      simp [write_flv_header]
    rw [hsplit, List.drop_left' (by decide),
      List.take_left' (by simp [metaLenBytes, pack_L])]
  · intro n
    rw [metaLenBytes_eq_encodeBE, beVal_encodeBE]
    norm_num
  · intro n hn heq
    have h := Nat.mod_lt n (show 0 < 16777216 by decide)
    omega

/-- C10 witness: at length `2^24` the declared 3-byte length is `0`. -/
theorem c10_metadata_length_wraps_witness :
    beVal (metaLenBytes 16777216) ≠ 16777216 := by
  intro heq
  exact c10_metadata_length_wraps.2.2 16777216 (by decide)
    (((c10_metadata_length_wraps.2.1 16777216).symm).trans heq)

lemma readN_one (buf : List Nat) : readN buf 1 = (buf.take 1, buf.drop 1) := by
  rw [readN, if_neg (by decide)]
  simp

lemma readN_four (buf : List Nat) : readN buf 4 = (buf.take 4, buf.drop 4) := by
  rw [readN, if_neg (by decide)]
  simp

lemma readN_eight (buf : List Nat) : readN buf 8 = (buf.take 8, buf.drop 8) := by
  rw [readN, if_neg (by decide)]
  simp

lemma readN_neg (buf : List Nat) (n : Int) (h : n < 0) : readN buf n = (buf, []) := by
  rw [readN, if_pos h]

lemma read_unsigned_char_eq (buf : List Nat) :
    read_unsigned_char buf =
      if buf.length < 1 then none else some (beVal (buf.take 1), buf.drop 1) := by
  simp only [read_unsigned_char, readN_one]
  by_cases h : buf.length < 1
  · rw [if_neg (by rw [List.length_take]; omega), if_pos h]
  · rw [if_pos (by rw [List.length_take]; omega), if_neg h]

lemma read_unsigned_int_eq (buf : List Nat) :
    read_unsigned_int buf =
      if buf.length < 4 then none else some (beVal (buf.take 4), buf.drop 4) := by
  simp only [read_unsigned_int, readN_four]
  by_cases h : buf.length < 4
  · rw [if_neg (by rw [List.length_take]; omega), if_pos h]
  · rw [if_pos (by rw [List.length_take]; omega), if_neg h]

lemma read_unsigned_long_long_eq (buf : List Nat) :
    read_unsigned_long_long buf =
      if buf.length < 8 then none else some (beVal (buf.take 8), buf.drop 8) := by
  simp only [read_unsigned_long_long, readN_eight]
  by_cases h : buf.length < 8
  · rw [if_neg (by rw [List.length_take]; omega), if_pos h]
  · rw [if_pos (by rw [List.length_take]; omega), if_neg h]

/-- C7 counterexample: a buffer whose box header declares size 0.  The
claim says `read_box_info` fails (`MalformedBox`); the code instead
*succeeds* — `self.read(0 - 8)` is a negative-count read, which returns the
whole remaining buffer as the payload. -/
theorem c7_counterexample :
    read_box_info [0, 0, 0, 0, 65, 66, 67, 68, 1, 2, 3] =
      some (0, [65, 66, 67, 68], [1, 2, 3], []) := by decide

/-- C7 (corrected): a declared 32-bit size of 0 is *not* rejected: the box
is decoded with payload equal to every byte remaining after the type tag
(`read` of the negative count `0 - 8` returns the rest of the buffer), and
the reader is left at end of buffer. -/
theorem c7_zero_size_reads_rest (t rest : List Nat) (ht : t.length = 4) :
    read_box_info ([0, 0, 0, 0] ++ (t ++ rest)) = some (0, t, rest, []) := by
  rw [read_box_info, read_unsigned_int_eq,
    if_neg (by simp), List.take_left' (by decide), List.drop_left' (by decide)]
  have hb : beVal [0, 0, 0, 0] = 0 := by decide
  rw [hb]
  simp only [readN_four, List.take_left' ht, List.drop_left' ht]
  rw [if_neg (by decide)]
  rw [readN_neg _ _ (by decide)]

/-- C7 witness: a concrete zero-size box with tag `WXYZ` and three trailing
bytes decodes to the whole remainder. -/
theorem c7_zero_size_reads_rest_witness :
    read_box_info ([0, 0, 0, 0] ++ ([87, 88, 89, 90] ++ [7, 8, 9])) =
      some (0, [87, 88, 89, 90], [7, 8, 9], []) :=
  c7_zero_size_reads_rest [87, 88, 89, 90] [7, 8, 9] (by decide)

/-- C8 counterexample: a box declaring a 12-byte payload with 0 payload
bytes remaining.  The claim says `read_box_info` fails with
`TruncatedInput`; the code instead succeeds, silently returning the empty
payload (length 0, not `size - header_length = 12`). -/
theorem c8_counterexample :
    read_box_info [0, 0, 0, 20, 97, 98, 99, 100] =
      some (20, [97, 98, 99, 100], [], []) ∧
    (0 : Nat) ≠ 20 - 8 := by
  exact ⟨by decide, by decide⟩

/-- C8 (corrected): the primitive reads do fail when fewer bytes remain
than required, and header length is 16 exactly when the 32-bit size field
is the sentinel 1 (else 8); but `read_box_info` has *no* payload
completeness check: it returns `min (size - header_length, remaining)`
payload bytes, never failing on a truncated payload. -/
theorem c8_reads_and_box_payload :
    (∀ buf : List Nat, read_unsigned_char buf = none ↔ buf.length < 1) ∧
    (∀ buf : List Nat, read_unsigned_int buf = none ↔ buf.length < 4) ∧
    (∀ buf : List Nat, read_unsigned_long_long buf = none ↔ buf.length < 8) ∧
    (∀ (s1 s2 s3 s4 : Nat) (t rest : List Nat), t.length = 4 →
      beVal [s1, s2, s3, s4] ≠ 1 → 8 ≤ beVal [s1, s2, s3, s4] →
      read_box_info ([s1, s2, s3, s4] ++ (t ++ rest)) =
        some (beVal [s1, s2, s3, s4], t,
          rest.take (beVal [s1, s2, s3, s4] - 8),
          rest.drop (beVal [s1, s2, s3, s4] - 8)) ∧
      (rest.take (beVal [s1, s2, s3, s4] - 8)).length =
        min (beVal [s1, s2, s3, s4] - 8) rest.length) ∧
    (∀ (t ext rest : List Nat), t.length = 4 → ext.length = 8 →
      16 ≤ beVal ext →
      read_box_info ([0, 0, 0, 1] ++ (t ++ (ext ++ rest))) =
        some (beVal ext, t, rest.take (beVal ext - 16),
          rest.drop (beVal ext - 16))) := by
  refine ⟨?_, ?_, ?_, ?_, ?_⟩
  · intro buf
    rw [read_unsigned_char_eq]
    by_cases h : buf.length < 1 <;> simp [h]
  · intro buf
    rw [read_unsigned_int_eq]
    by_cases h : buf.length < 4 <;> simp [h]
  · intro buf
    rw [read_unsigned_long_long_eq]
    by_cases h : buf.length < 8 <;> simp [h]
  · intro s1 s2 s3 s4 t rest ht h1 h8
    have hread : read_unsigned_int ([s1, s2, s3, s4] ++ (t ++ rest)) =
        some (beVal [s1, s2, s3, s4], t ++ rest) := by
      rw [read_unsigned_int_eq, if_neg (by simp), List.take_left' (by simp),
        List.drop_left' (by simp)]
    constructor
    · simp only [read_box_info, hread, readN_four, List.take_left' ht,
        List.drop_left' ht]
      rw [if_neg h1]
      rw [readN, if_neg (by omega)]
      have htn : ((beVal [s1, s2, s3, s4] : Int) - 8).toNat =
          beVal [s1, s2, s3, s4] - 8 := by omega
      rw [htn]
    · rw [List.length_take]
  · intro t ext rest ht hext h16
    have hread : read_unsigned_int ([0, 0, 0, 1] ++ (t ++ (ext ++ rest))) =
        some (1, t ++ (ext ++ rest)) := by
      rw [read_unsigned_int_eq, if_neg (by simp), List.take_left' (by decide),
        List.drop_left' (by decide)]
      have hb : beVal [0, 0, 0, 1] = 1 := by decide
      rw [hb]
    have hread8 : read_unsigned_long_long (ext ++ rest) = some (beVal ext, rest) := by
      rw [read_unsigned_long_long_eq, if_neg (by rw [List.length_append]; omega),
        List.take_left' hext, List.drop_left' hext]
    simp only [read_box_info, hread, readN_four, List.take_left' ht,
      List.drop_left' ht]
    rw [if_pos trivial]
    simp only [hread8]
    rw [readN, if_neg (by omega)]
    have htn : ((beVal ext : Int) - 16).toNat = beVal ext - 16 := by omega
    rw [htn]

/-- C8 witness: a box declaring a 12-byte payload over only 2 remaining
bytes succeeds with the 2 available bytes (`min (12, 2) = 2`). -/
theorem c8_reads_and_box_payload_witness :
    read_box_info ([0, 0, 0, 12] ++ ([97, 98, 99, 100] ++ [5, 6])) =
      some (12, [97, 98, 99, 100], [5, 6], []) := by
  have h := (c8_reads_and_box_payload.2.2.2.1 0 0 0 12 [97, 98, 99, 100] [5, 6]
    (by decide) (by decide) (by decide)).1
  exact h.trans (by decide)

lemma readStringAux_no_zero (fuel : Nat) (buf : List Nat) (h : 0 ∉ buf) :
    readStringAux fuel buf = none := by
  induction fuel generalizing buf with
  | zero => rfl
  | succ fuel ih =>
    cases buf with
    | nil => exact ih [] h
    | cons c rest =>
      have hc : c ≠ 0 := fun hc0 => h (hc0 ▸ List.mem_cons_self c rest)
      rw [readStringAux, if_neg hc, ih rest (fun hr => h (List.mem_cons_of_mem c hr))]

/-- C6 (code bug): on a buffer with no NUL byte — e.g. `b"ab"` — the
`read_string` loop never terminates: at end of buffer `self.read(1)`
returns `b''`, which is never equal to `b'\x00'`, so the loop spins
without consuming input.  In the fuel model, *no* amount of fuel produces
a result.  The spec's `TruncatedInput` failure is the clear intent. -/
theorem c6_read_string_diverges :
    (∀ fuel : Nat, readStringAux fuel [97, 98] = none) ∧
    read_string [97, 98] = none := by
  refine ⟨fun fuel => readStringAux_no_zero fuel [97, 98] (by decide), ?_⟩
  exact readStringAux_no_zero 3 [97, 98] (by decide)

/-- C9 (code bug): the root box parser's quality loop is
`for i in range(server_count)` — it consumes `server_count` NUL-terminated
strings after the `quality_count` byte, not `quality_count` of them.  On
this input `server_count = 1` and `quality_count = 0`, with the bytes
after the quality count laid out as `drm_data = "D"`, `metadata = "M"`,
zero segment tables, zero fragment tables: correct-offset decoding gives
`drm_data = "D"` (byte 68), but the code consumes `"D"` as a discarded
quality string and returns `drm_data = "M"` (byte 77) — every following
field is decoded from a shifted offset. -/
theorem c9_quality_count_misaligned :
    read_abst
      [0, 0, 0, 0, 0, 0, 0, 0, 0, 0, 0, 0, 0,
       0, 0, 0, 0, 0, 0, 0, 0, 0, 0, 0, 0, 0, 0, 0, 0,
       0, 1, 83, 0, 0, 68, 0, 77, 0, 0, 0, 0] =
      some { segments := [], movie_identifier := [],
             drm_data := [77], fragments := [] } := by decide

/-- The `mdat`-scанning `while True` loop of `download_info_dict`
(lines 266–270), with fuel: read a box; if its type tag is `mdat`
(bytes `[109,100,97,116]`) take its payload, else loop.  `none` is the
uncaught `struct.error` crash when the buffer runs out; there is no
box-count cap in the code. -/
def extractMdatAux : Nat → List Nat → Option (List Nat)
  | 0, _ => none
  | fuel + 1, buf =>
    match read_box_info buf with
    | none => none
    | some (_, btype, bdata, rest) =>
      if btype = [109, 100, 97, 116] then some bdata
      else extractMdatAux fuel rest

/-- The extraction loop on a whole fragment buffer.  Every successful
`read_box_info` consumes at least the 4 size bytes, so the loop runs at
most `buf.length / 4 + 1` times before `read_box_info` raises; fuel
`buf.length + 1` is therefore never exhausted and the fuelled function is
exactly the loop's semantics. -/
def extractMdat (buf : List Nat) : Option (List Nat) :=
  extractMdatAux (buf.length + 1) buf

lemma readN_snd_length (buf : List Nat) (n : Int) :
    ((readN buf n).2).length ≤ buf.length := by
  rw [readN]
  by_cases h : n < 0
  · rw [if_pos h]; simp
  · rw [if_neg h]; simp

lemma read_unsigned_int_some (buf : List Nat) (v : Nat) (r : List Nat)
    (h : read_unsigned_int buf = some (v, r)) :
    r = buf.drop 4 ∧ 4 ≤ buf.length := by
  rw [read_unsigned_int_eq] at h
  by_cases hl : buf.length < 4
  · rw [if_pos hl] at h; simp at h
  · rw [if_neg hl] at h
    obtain ⟨_, hr⟩ := Prod.mk.inj (Option.some.inj h)
    exact ⟨hr.symm, by omega⟩

lemma read_unsigned_long_long_some (buf : List Nat) (v : Nat) (r : List Nat)
    (h : read_unsigned_long_long buf = some (v, r)) :
    r = buf.drop 8 ∧ 8 ≤ buf.length := by
  rw [read_unsigned_long_long_eq] at h
  by_cases hl : buf.length < 8
  · rw [if_pos hl] at h; simp at h
  · rw [if_neg hl] at h
    obtain ⟨_, hr⟩ := Prod.mk.inj (Option.some.inj h)
    exact ⟨hr.symm, by omega⟩

lemma read_box_info_shrink (buf : List Nat) (s : Nat) (t p rest : List Nat)
    (h : read_box_info buf = some (s, t, p, rest)) :
    rest.length + 4 ≤ buf.length := by
  rw [read_box_info] at h
  cases h1 : read_unsigned_int buf with
  | none => rw [h1] at h; simp at h
  | some v =>
    obtain ⟨size, b1⟩ := v
    obtain ⟨hb1, hlen⟩ := read_unsigned_int_some buf size b1 h1
    rw [h1] at h
    simp only [] at h
    by_cases hs : size = 1
    · rw [if_pos hs] at h
      cases h2 : read_unsigned_long_long (readN b1 4).2 with
      | none => rw [h2] at h; simp at h
      | some w =>
        obtain ⟨rs, b2⟩ := w
        obtain ⟨hb2, _⟩ := read_unsigned_long_long_some _ rs b2 h2
        rw [h2] at h
        simp only [Option.some.injEq, Prod.mk.injEq] at h
        obtain ⟨_, _, _, hrest⟩ := h
        have h3 : rest.length ≤ b2.length := hrest ▸ readN_snd_length b2 _
        have h4 : b2.length ≤ (readN b1 4).2.length := by
          rw [hb2]; simp
        have h5 : (readN b1 4).2.length ≤ b1.length := readN_snd_length b1 4
        have h6 : b1.length = buf.length - 4 := by rw [hb1]; simp
        omega
    · rw [if_neg hs] at h
      simp only [Option.some.injEq, Prod.mk.injEq] at h
      obtain ⟨_, _, _, hrest⟩ := h
      have h3 : rest.length ≤ (readN b1 4).2.length :=
        hrest ▸ readN_snd_length (readN b1 4).2 _
      have h5 : (readN b1 4).2.length ≤ b1.length := readN_snd_length b1 4
      have h6 : b1.length = buf.length - 4 := by rw [hb1]; simp
      omega

lemma extractMdatAux_nil (f : Nat) : extractMdatAux f [] = none := by
  cases f with
  | zero => rfl
  | succ g =>
    rw [extractMdatAux, show read_box_info [] = none from by decide]

lemma extractMdatAux_fuel (n : Nat) :
    ∀ (buf : List Nat), buf.length ≤ n → ∀ f1 f2, buf.length < f1 →
      buf.length < f2 → extractMdatAux f1 buf = extractMdatAux f2 buf := by
  induction n with
  | zero =>
    intro buf hb f1 f2 h1 h2
    have hnil : buf = [] := List.length_eq_zero.mp (by omega)
    subst hnil
    rw [extractMdatAux_nil, extractMdatAux_nil]
  | succ n ih =>
    intro buf hb f1 f2 h1 h2
    obtain ⟨g1, rfl⟩ : ∃ g, f1 = g + 1 := ⟨f1 - 1, by omega⟩
    obtain ⟨g2, rfl⟩ : ∃ g, f2 = g + 1 := ⟨f2 - 1, by omega⟩
    cases hbox : read_box_info buf with
    | none => simp only [extractMdatAux, hbox]
    | some v =>
      obtain ⟨s, t, p, rest⟩ := v
      have hshrink := read_box_info_shrink buf s t p rest hbox
      simp only [extractMdatAux, hbox]
      by_cases hm : t = [109, 100, 97, 116]
      · rw [if_pos hm, if_pos hm]
      · rw [if_neg hm, if_neg hm]
        exact ih rest (by omega) g1 g2 (by omega) (by omega)

/-- An 8-byte box with type tag `junk` and empty payload. -/
def junkBox : List Nat := [0, 0, 0, 8] ++ [106, 117, 110, 107]

/-- A well-formed `mdat` box holding payload `p`. -/
def mdatBoxBytes (p : List Nat) : List Nat :=
  encodeBE 4 (p.length + 8) ++ ([109, 100, 97, 116] ++ p)

lemma encodeBE_length (w n : Nat) : (encodeBE w n).length = w := by
  induction w generalizing n with
  | zero => rfl
  | succ w ih => simp [encodeBE, ih]

lemma read_box_info_junk (rest : List Nat) :
    read_box_info (junkBox ++ rest) = some (8, [106, 117, 110, 107], [], rest) := by
  have hsh : junkBox ++ rest = [0, 0, 0, 8] ++ ([106, 117, 110, 107] ++ rest) := by
    simp [junkBox]
  rw [hsh]
  have hread : read_unsigned_int ([0, 0, 0, 8] ++ ([106, 117, 110, 107] ++ rest)) =
      some (beVal [0, 0, 0, 8], [106, 117, 110, 107] ++ rest) := by
    rw [read_unsigned_int_eq, if_neg (by simp), List.take_left' (by decide),
      List.drop_left' (by decide)]
  simp only [read_box_info, hread, readN_four, List.take_left' (by decide :
    ([106, 117, 110, 107] : List Nat).length = 4), List.drop_left' (by decide :
    ([106, 117, 110, 107] : List Nat).length = 4)]
  rw [if_neg (by decide)]
  rw [readN, if_neg (by decide)]
  have hb : beVal [0, 0, 0, 8] = 8 := by decide
  rw [hb]
  simp

lemma read_box_info_mdat (p : List Nat) (hp : p.length + 8 < 4294967296) :
    read_box_info (mdatBoxBytes p) =
      some (p.length + 8, [109, 100, 97, 116], p, []) := by
  have hlen4 : (encodeBE 4 (p.length + 8)).length = 4 := encodeBE_length 4 _
  have hread : read_unsigned_int (mdatBoxBytes p) =
      some (beVal (encodeBE 4 (p.length + 8)), [109, 100, 97, 116] ++ p) := by
    rw [mdatBoxBytes, read_unsigned_int_eq,
      if_neg (by rw [List.length_append, hlen4]; omega),
      List.take_left' hlen4, List.drop_left' hlen4]
  have hbe : beVal (encodeBE 4 (p.length + 8)) = p.length + 8 := by
    rw [beVal_encodeBE, show (256 : Nat) ^ 4 = 4294967296 from by norm_num]
    exact Nat.mod_eq_of_lt hp
  simp only [read_box_info, hread, hbe, readN_four, List.take_left' (by decide :
    ([109, 100, 97, 116] : List Nat).length = 4), List.drop_left' (by decide :
    ([109, 100, 97, 116] : List Nat).length = 4)]
  rw [if_neg (by omega)]
  rw [readN, if_neg (by omega)]
  have htn : (((p.length + 8 : Nat) : Int) - 8).toNat = p.length := by omega
  rw [htn, List.take_length, List.drop_length]

lemma extractMdatAux_step (f : Nat) (buf : List Nat) :
    extractMdatAux (f + 1) buf =
      match read_box_info buf with
      | none => none
      | some (_, btype, bdata, rest) =>
        if btype = [109, 100, 97, 116] then some bdata
        else extractMdatAux f rest := rfl

lemma extractMdat_junk_prepend (rest : List Nat) :
    extractMdat (junkBox ++ rest) = extractMdat rest := by
  rw [extractMdat]
  have hlen : (junkBox ++ rest).length = rest.length + 8 := by simp [junkBox]
  rw [hlen, extractMdatAux_step, read_box_info_junk]
  simp only []
  rw [if_neg (by decide), extractMdat]
  exact extractMdatAux_fuel rest.length rest (le_refl _) (rest.length + 8)
    (rest.length + 1) (by omega) (by omega)

lemma extractMdat_mdatBox (p : List Nat) (hp : p.length + 8 < 4294967296) :
    extractMdat (mdatBoxBytes p) = some p := by
  rw [extractMdat, extractMdatAux_step, read_box_info_mdat p hp]
  simp

set_option maxRecDepth 10000 in
/-- C5 counterexample: a fragment of 33 non-`mdat` boxes followed by an
`mdat` box.  The claim says the scan stops with `MissingMediaBox` after a
fixed cap of 32 boxes; the code scans on and returns the 34th box's
payload. -/
theorem c5_counterexample :
    extractMdat ((List.replicate 33 junkBox).flatten ++ mdatBoxBytes [1, 2, 3]) =
      some [1, 2, 3] := by decide

/-- C5 (corrected): the extraction loop has *no* box-count cap: for every
number `n` of leading non-`mdat` boxes it scans past all of them and
returns the first `mdat` payload; and when the buffer holds no `mdat` at
all it fails — with an uncaught `struct.error` when `read_box_info` runs
out of bytes, not with a `MissingMediaBox` error.  The scan is still
bounded by the buffer length (each examined box consumes at least 4
bytes), so it never scans unboundedly. -/
theorem c5_no_scan_cap :
    (∀ (n : Nat) (p : List Nat), p.length + 8 < 4294967296 →
      extractMdat ((List.replicate n junkBox).flatten ++ mdatBoxBytes p) = some p) ∧
    (∀ n : Nat, extractMdat ((List.replicate n junkBox).flatten) = none) := by
  constructor
  · intro n p hp
    induction n with
    | zero =>
      rw [List.replicate_zero, List.flatten_nil, List.nil_append]
      exact extractMdat_mdatBox p hp
    | succ n ih =>
      rw [List.replicate_succ, List.flatten_cons, List.append_assoc,
        extractMdat_junk_prepend]
      exact ih
  · intro n
    induction n with
    | zero =>
      rw [List.replicate_zero, List.flatten_nil]
      rfl
    | succ n ih =>
      rw [List.replicate_succ, List.flatten_cons, extractMdat_junk_prepend]
      exact ih

/-- C5 witness: forty junk boxes before the `mdat` are scanned through. -/
theorem c5_no_scan_cap_witness :
    extractMdat ((List.replicate 40 junkBox).flatten ++ mdatBoxBytes [9]) =
      some [9] :=
  c5_no_scan_cap.1 40 [9] (by decide)

/-- `u'Seg%d-Frag%d' % (seg_i, frag_i)` — the per-fragment URL suffix and
name component. -/
def fragmentName (p : Nat × Nat) : String :=
  "Seg" ++ toString p.1 ++ "-Frag" ++ toString p.2

/-- `u'%s-%s' % (tmpfilename, name)` — the fragment temp file path. -/
def fragFilename (tmpname : String) (p : Nat × Nat) : String :=
  tmpname ++ "-" ++ fragmentName p

/-- Observable outcome of the download loop of `download_info_dict`
(lines 254–297): whether it executed `return False` (a fetch failure),
whether it escaped with an uncaught exception (the `struct.error` of the
`mdat` scan), the file contents at the final destination and at the
temporary output path (`none` = no file), and the fragment temp files
remaining on disk. -/
structure RunResult where
  returnedFalse : Bool
  raisedError : Bool
  finalFile : Option (List Nat)
  tmpFile : Option (List Nat)
  fragFiles : List String
  deriving DecidableEq, Repr

/-- The fragment loop: for each planned `(seg, frag)` the external
collaborator is asked for the fragment bytes (`fetch = none` models
`_do_download` returning failure).  On failure the code executes
`return False` — *without* removing the temp output file or the fragment
files fetched so far.  On success the fragment file is written, its `mdat`
payload appended to the temp output, and its name appended to
`frags_filenames`.  Only after *all* fragments succeed does the code
rename the temp output to the destination and delete the fragment files
(lines 287–289). -/
def runFrags (tmpname : String) (fetch : Nat × Nat → Option (List Nat)) :
    List (Nat × Nat) → List Nat → List String → RunResult
  | [], content, _files =>
    { returnedFalse := false, raisedError := false,
      finalFile := some content, tmpFile := none, fragFiles := [] }
  | f :: rest, content, files =>
    match fetch f with
    | none =>
      { returnedFalse := true, raisedError := false,
        finalFile := none, tmpFile := some content, fragFiles := files }
    | some bytes =>
      match extractMdat bytes with
      | none =>
        { returnedFalse := false, raisedError := true,
          finalFile := none, tmpFile := some content,
          fragFiles := files ++ [fragFilename tmpname f] }
      | some payload =>
        runFrags tmpname fetch rest (content ++ payload)
          (files ++ [fragFilename tmpname f])

/-- A download session: write the FLV header to the temp output, then run
the fragment loop. -/
def runSession (tmpname : String) (metadata : List Nat)
    (fetch : Nat × Nat → Option (List Nat)) (frags : List (Nat × Nat)) :
    RunResult :=
  runFrags tmpname fetch frags (write_flv_header metadata) []

/-- C3 counterexample: three planned fragments, the second fetch fails.
The claim says every fragment temp artifact is deleted and the temporary
output path is not left in place; in the code the `return False` path
(lines 261–262) deletes nothing: the first fragment's temp file and the
temp output file both remain on disk. -/
theorem c3_counterexample :
    runSession "tmp" []
      (fun p => if p = (1, 1) then some [0, 0, 0, 9, 109, 100, 97, 116, 65]
                else none)
      [(1, 1), (1, 2), (1, 3)] =
      { returnedFalse := true, raisedError := false, finalFile := none,
        tmpFile := some (write_flv_header [] ++ [65]),
        fragFiles := ["tmp-Seg1-Frag1"] } := by decide

lemma runFrags_fetch_fail (tmpname : String)
    (fetch : Nat × Nat → Option (List Nat)) (P : Nat × Nat → List Nat) :
    ∀ (pre : List (Nat × Nat)) (content : List Nat) (files : List String)
      (f : Nat × Nat) (rest : List (Nat × Nat)),
      (∀ g ∈ pre, ∃ b, fetch g = some b ∧ extractMdat b = some (P g)) →
      fetch f = none →
      runFrags tmpname fetch (pre ++ f :: rest) content files =
        { returnedFalse := true, raisedError := false, finalFile := none,
          tmpFile := some (content ++ (pre.map P).flatten),
          fragFiles := files ++ pre.map (fragFilename tmpname) } := by
  intro pre
  induction pre with
  | nil =>
    intro content files f rest _ hf
    simp only [List.nil_append, List.map_nil, List.flatten_nil, List.append_nil]
    simp only [runFrags, hf]
  | cons g pre ih =>
    intro content files f rest hpre hf
    obtain ⟨b, hgb, hext⟩ := hpre g (List.mem_cons_self g pre)
    simp only [List.cons_append, runFrags, hgb, hext]
    rw [List.append_eq]
    rw [ih (content ++ P g) (files ++ [fragFilename tmpname g]) f rest
      (fun x hx => hpre x (List.mem_cons_of_mem g hx)) hf]
    simp

/-- C3 (corrected): when a fragment fetch fails, the orchestrator does
return failure and no file exists at the final destination — but contrary
to the claim, nothing is cleaned up: the temp output file (holding the
header plus the payloads appended so far) and every fragment temp file
fetched so far are left on disk.  Cleanup happens only on the all-success
path. -/
theorem c3_fetch_failure_no_cleanup (tmpname : String) (metadata : List Nat)
    (fetch : Nat × Nat → Option (List Nat)) (P : Nat × Nat → List Nat)
    (pre : List (Nat × Nat)) (f : Nat × Nat) (rest : List (Nat × Nat))
    (hpre : ∀ g ∈ pre, ∃ b, fetch g = some b ∧ extractMdat b = some (P g))
    (hf : fetch f = none) :
    runSession tmpname metadata fetch (pre ++ f :: rest) =
      { returnedFalse := true, raisedError := false, finalFile := none,
        tmpFile := some (write_flv_header metadata ++ (pre.map P).flatten),
        fragFiles := pre.map (fragFilename tmpname) } := by
  rw [runSession, runFrags_fetch_fail tmpname fetch P pre
    (write_flv_header metadata) [] f rest hpre hf]
  simp

/-- C3 witness: one successful fragment, then a failed fetch — the result
carries the leftover temp output and the fetched fragment's temp file. -/
theorem c3_fetch_failure_no_cleanup_witness :
    runSession "out.flv.part" [1]
      (fun p => if p = (2, 7) then some [0, 0, 0, 10, 109, 100, 97, 116, 5, 6]
                else none)
      [(2, 7), (2, 8)] =
      { returnedFalse := true, raisedError := false, finalFile := none,
        tmpFile := some (write_flv_header [1] ++ [5, 6]),
        fragFiles := ["out.flv.part-Seg2-Frag7"] } := by
  have h := c3_fetch_failure_no_cleanup "out.flv.part" [1]
    (fun p => if p = (2, 7) then some [0, 0, 0, 10, 109, 100, 97, 116, 5, 6]
              else none)
    (fun _ => [5, 6]) [(2, 7)] (2, 8) []
    (by
      intro g hg
      simp only [List.mem_singleton] at hg
      subst hg
      exact ⟨[0, 0, 0, 10, 109, 100, 97, 116, 5, 6], by decide, by decide⟩)
    (by decide)
  exact h.trans (by decide)
